import Mathlib

/-!
Verification model of the streaming DEFLATE decompression engines in
`src/lib.rs` (incremental `Decompressor`) and `src/zlib.rs`
(frame-synchronized `ZlibDecompressor`).

The DEFLATE primitive (`zlib-rs`'s `inflate`) is external to the repository;
it is modelled as an oracle: a function from the index of the `inflate`
invocation (within one public call) to the step outcome the primitive
reports (bytes consumed from the input slice, bytes written into the
scratch buffer, and a return status).  The engines' retry loops are
translated statement-by-statement from the Rust source; loops are indexed
by explicit fuel, where a result of `none` means the loop has not returned
within that many iterations.

Some Rust paths exit the function through the `?` operator on a
`napi::Result` (for example the `try_into` calls guarding `avail_in`);
at the host boundary these become thrown exceptions, not returned result
objects.  They are modelled by the `thrown` constructor, kept distinct from
the returned envelope (`env`).
-/

namespace CompressionLib

/-- Return statuses of the inflate primitive as distinguished by the engines:
`ReturnCode::Ok`, `ReturnCode::StreamEnd`, `ReturnCode::BufError` are handled
specially; `other code` stands for every other `ReturnCode` (its `Debug`
rendering being `code`); `refFail` models `InflateStream::from_stream_mut`
returning `None`. -/
inductive Status where
  | ok
  | streamEnd
  | bufError
  | other (code : String)
  | refFail
deriving DecidableEq, Repr

/-- Outcome of one invocation of the inflate primitive: how many input bytes it
consumed (the drop in `avail_in`), which bytes it wrote into the scratch
buffer (the drop in `avail_out` / growth of `total_out`), and its status. -/
structure InfStep where
  consumed : Nat
  outBytes : List Nat
  status : Status
deriving DecidableEq, Repr

/-- A behaviour of the external inflate primitive during one public call:
`oracle j` is the outcome of the j-th `inflate` invocation. -/
def Oracle : Type := Nat → InfStep

/-- `u32::MAX`: the largest length representable in `z_stream.avail_in` /
`avail_out`; `usize::try_into::<u32>` fails strictly above it. -/
def U32MAX : Nat := 4294967295

/-- `OUTPUT_CHUNK_SIZE` from `src/lib.rs`: the incremental engine's fixed
scratch-buffer size (16 KiB). -/
def OUTPUT_CHUNK_SIZE : Nat := 16 * 1024

/-- The incremental engine's state visible to the model: the `finished` latch.
(The `z_stream` itself is external state, represented by the oracle.) -/
structure Decompressor where
  finished : Bool
deriving DecidableEq, Repr

/-- The result object built by the incremental engine: `success data fin`
models `{ ok: true, data?: Buffer, finished: fin }` (the `data` property is
present exactly when the list is non-empty), and `failure msg` models
`{ ok: false, error: msg }`. -/
inductive DResult where
  | success (data : List Nat) (finished : Bool)
  | failure (error : String)
deriving DecidableEq, Repr

/-- What a public call of the incremental engine delivers to the host: either
a value returned through the `napi::Result` error channel (`thrown`, surfacing
as a host exception) or a returned result object (`env`). -/
inductive DRet where
  | thrown (msg : String)
  | env (r : DResult)
deriving DecidableEq, Repr

/-- `true` exactly when the call delivered a result object (and not a host
exception). -/
def DRet.isEnv : DRet → Bool
  | .thrown _ => false
  | .env _ => true

/-- The retry loop of `Decompressor::push` (src/lib.rs lines 94-186),
translated line by line.  Arguments: fuel, the invocation index `k` fed to the
oracle, the remaining `input_chunk`, and the accumulated `output_buffer`.
Returns the delivered value, the `finished` flag after the call, and (ghost
data, not part of the Rust return value) the final value of the loop variable
`input_chunk`, i.e. the bytes of this call's input left unconsumed. -/
def pushLoop (oracle : Oracle) : Nat → Nat → List Nat → List Nat →
    Option (DRet × Bool × List Nat)
  | 0, _, _, _ => none
  | fuel + 1, k, input, output =>
    if input = [] then
      some (.env (.success output false), false, input)
    else if U32MAX < input.length then
      some (.thrown "Input chunk too large", false, input)
    else
      match (oracle k).status with
      | .refFail =>
          some (.env (.failure "Failed to get inflate stream reference"), true, input)
      | .ok =>
          let output' := output ++ (oracle k).outBytes
          let input' := input.drop (oracle k).consumed
          if input' = [] then
            some (.env (.success output' false), false, input')
          else if OUTPUT_CHUNK_SIZE ≤ (oracle k).outBytes.length then
            pushLoop oracle fuel (k + 1) input' output'
          else
            some (.env (.success output' false), false, input')
      | .streamEnd =>
          some (.env (.success (output ++ (oracle k).outBytes) true), true,
            input.drop (oracle k).consumed)
      | .bufError =>
          let output' := output ++ (oracle k).outBytes
          let input' := input.drop (oracle k).consumed
          if input' = [] then
            some (.env (.success output' false), false, input')
          else
            pushLoop oracle fuel (k + 1) input' output'
      | .other code =>
          some (.env (.failure ("Inflate error: " ++ code)), true,
            input.drop (oracle k).consumed)

/-- `Decompressor::push` (src/lib.rs lines 73-200): early return when already
finished, otherwise the retry loop starting with the whole input and an empty
output buffer. -/
def Decompressor.push (e : Decompressor) (oracle : Oracle) (fuel : Nat)
    (data : List Nat) : Option (DRet × Bool × List Nat) :=
  if e.finished then some (.env (.success [] true), true, data)
  else pushLoop oracle fuel 0 data []

/-- The retry loop of `Decompressor::finish` (src/lib.rs lines 221-301):
`inflate` is invoked with empty input and flush mode `Finish`; each iteration
appends the written bytes; the loop stops on `StreamEnd` (success), on `Ok` or
`BufError` with nothing written (assumed finished, resp. buffer too small),
and on any other code (decode error). -/
def finishLoop (oracle : Oracle) : Nat → Nat → List Nat → Option (DRet × Bool)
  | 0, _, _ => none
  | fuel + 1, k, output =>
    match (oracle k).status with
    | .refFail =>
        some (.env (.failure "Failed to get inflate stream reference during finish"), true)
    | .streamEnd =>
        some (.env (.success (output ++ (oracle k).outBytes) true), true)
    | .ok =>
        if (oracle k).outBytes.length = 0 then
          some (.env (.success (output ++ (oracle k).outBytes) true), true)
        else
          finishLoop oracle fuel (k + 1) (output ++ (oracle k).outBytes)
    | .bufError =>
        if (oracle k).outBytes.length = 0 then
          some (.env (.failure "Output buffer too small to finish inflation"), true)
        else
          finishLoop oracle fuel (k + 1) (output ++ (oracle k).outBytes)
    | .other code =>
        some (.env (.failure ("Inflate finish error: " ++ code)), true)

/-- `Decompressor::finish` (src/lib.rs lines 205-313): early return when
already finished, otherwise the finish retry loop. -/
def Decompressor.finish (e : Decompressor) (oracle : Oracle) (fuel : Nat) :
    Option (DRet × Bool) :=
  if e.finished then some (.env (.success [] true), true)
  else finishLoop oracle fuel 0 []

/-- `Z_SYNC_FLUSH_SUFFIX` from `src/zlib.rs`: the 4-byte sync-flush marker. -/
def Z_SYNC_FLUSH_SUFFIX : List Nat := [0, 0, 255, 255]

/-- The frame-synchronized engine's state: the configured scratch-buffer
(chunk) size, the accumulation buffer, and the `finished` latch. -/
structure ZlibDecompressor where
  chunk_size : Nat
  internal_buffer : List Nat
  finished : Bool
deriving DecidableEq, Repr

/-- The result object built by the frame-synchronized engine:
`success data` models `{ ok: true, data?: Buffer }` (the `data` property is
present exactly when the list is non-empty), `failure msg` models
`{ ok: false, error: msg }`.  This engine's result has no `finished` field. -/
inductive ZResult where
  | success (data : List Nat)
  | failure (error : String)
deriving DecidableEq, Repr

/-- What a public call of the frame-synchronized engine delivers: a value on
the `napi::Result` error channel (`thrown`) or a returned object (`env`). -/
inductive ZRet where
  | thrown (msg : String)
  | env (r : ZResult)
deriving DecidableEq, Repr

/-- The nested decompression loops of `ZlibDecompressor::push`
(src/zlib.rs lines 97-178), flattened: each iteration is one `inflate`
invocation (inner-loop body).  When the inner loop breaks without the run
being finished, the outer `while` re-checks emptiness of the remaining input
and re-converts its length for `avail_in` (the `?`-thrown overflow check)
before re-entering; when the inner loop continues (`avail_out == 0`), neither
check happens.  Returns the delivered value, the `finished` flag after the
call, and (ghost data) the final remaining `input_chunk`. -/
def zLoop (oracle : Oracle) (chunkSize : Nat) : Nat → Nat → List Nat → List Nat →
    Option (ZRet × Bool × List Nat)
  | 0, _, _, _ => none
  | fuel + 1, k, input, output =>
    match (oracle k).status with
    | .refFail =>
        some (.env (.failure "Failed to get inflate stream reference"), true, input)
    | .ok | .bufError =>
        let output' := output ++ (oracle k).outBytes.take chunkSize
        let input' := input.drop (oracle k).consumed
        if chunkSize ≤ (oracle k).outBytes.length then
          zLoop oracle chunkSize fuel (k + 1) input' output'
        else if input' = [] then
          some (.env (.success output'), false, input')
        else if U32MAX < input'.length then
          some (.thrown "Input chunk too large", false, input')
        else
          zLoop oracle chunkSize fuel (k + 1) input' output'
    | .streamEnd =>
        some (.env (.success (output ++ (oracle k).outBytes.take chunkSize)), true,
          input.drop (oracle k).consumed)
    | .other code =>
        some (.env (.failure ("Inflate error: " ++ code)), true,
          input.drop (oracle k).consumed)

/-- Decompression of one complete accumulated frame by
`ZlibDecompressor::push`: the first outer-loop entry (emptiness check and
`avail_in` conversion of the whole frame, src/zlib.rs lines 97-102) followed
by the flattened loops. -/
def zFrame (oracle : Oracle) (chunkSize : Nat) (fuel : Nat) (frame : List Nat) :
    Option (ZRet × Bool × List Nat) :=
  if frame = [] then some (.env (.success []), false, [])
  else if U32MAX < frame.length then some (.thrown "Input chunk too large", false, frame)
  else zLoop oracle chunkSize fuel 0 frame []

/-- `ZlibDecompressor::push` (src/zlib.rs lines 67-190): early return when
finished; otherwise the input is appended to the accumulation buffer; if the
buffer does not end with the sync-flush marker the call returns success with
no data and the buffer is retained; otherwise the buffer is taken (emptied)
and decompressed as one frame. -/
def ZlibDecompressor.push (e : ZlibDecompressor) (oracle : Oracle) (fuel : Nat)
    (data : List Nat) : Option (ZRet × ZlibDecompressor × List Nat) :=
  if e.finished then some (.env (.success []), e, data)
  else
    let buf := e.internal_buffer ++ data
    if Z_SYNC_FLUSH_SUFFIX.isSuffixOf buf then
      (zFrame oracle e.chunk_size fuel buf).map fun p =>
        (p.1, ⟨e.chunk_size, [], p.2.1⟩, p.2.2)
    else
      some (.env (.success []), ⟨e.chunk_size, buf, false⟩, data)

/-- A primitive behaviour that consumes nothing, writes nothing, and reports
`Ok` on every invocation. -/
def oZero : Oracle := fun _ => ⟨0, [], .ok⟩

/-- A primitive behaviour that consumes exactly one byte, writes nothing, and
reports `Ok` on every invocation. -/
def oConsume1 : Oracle := fun _ => ⟨1, [], .ok⟩

/-- A primitive behaviour that consumes four bytes, writes nothing, and
reports `StreamEnd` on every invocation. -/
def oEnd : Oracle := fun _ => ⟨4, [], .streamEnd⟩

/-- A primitive behaviour that consumes nothing, writes nothing, and reports
`BufError` on every invocation (a primitive making no progress at all). -/
def oStuck : Oracle := fun _ => ⟨0, [], .bufError⟩

/-- A primitive behaviour that immediately reports a decode error. -/
def oErr : Oracle := fun _ => ⟨0, [], .other "DataError"⟩

/-- An input longer than `u32::MAX` bytes, overflowing `avail_in`. -/
def bigInput : List Nat := List.replicate (2 ^ 32) 0

/-- An invocation outcome on which the finish retry loop stops (any status
other than `Ok`/`BufError`, or zero bytes written). -/
def stepStops (s : InfStep) : Prop :=
  (s.status ≠ .ok ∧ s.status ≠ .bufError) ∨ s.outBytes = []

/-- The push call loops forever under the given primitive behaviour: no
amount of fuel makes the retry loop return. -/
def PushDiverges (oracle : Oracle) (e : Decompressor) (data : List Nat) : Prop :=
  ∀ fuel, e.push oracle fuel data = none

end CompressionLib

namespace CompressionLib

/-- Helper: a string starting with the character O is never a string starting
with the character I followed by anything. -/
theorem msg_ne_of_head (a b c : String) (hb : b.data.head? = some 'I')
    (ha : a.data.head? = some 'O') : a ≠ b ++ c := by
  intro h
  have h2 := congrArg String.data h
  rw [String.data_append] at h2
  have h3 := congrArg List.head? h2
  rw [ha, List.head?_append_of_ne_nil] at h3
  · rw [hb] at h3
    exact absurd (Option.some.inj h3) (by decide)
  · intro hnil
    rw [hnil] at hb
    exact absurd hb (by decide)

/-- Helper: under a primitive that consumes at least one byte per invocation,
the incremental push retry loop returns within `input.length` iterations. -/
theorem pushLoop_total (oracle : Oracle) (h : ∀ j, 1 ≤ (oracle j).consumed) :
    ∀ (fuel : Nat) (input : List Nat), input.length < fuel →
      ∀ (k : Nat) (output : List Nat), (pushLoop oracle fuel k input output).isSome := by
  intro fuel
  induction fuel with
  | zero => intro input hlt; omega
  | succ n ih =>
    intro input hlt k output
    by_cases hin : input = []
    · simp [pushLoop, hin]
    · by_cases hlen : U32MAX < input.length
      · simp [pushLoop, hin, hlen]
      · cases hst : (oracle k).status with
        | refFail => simp [pushLoop, hin, hlen, hst]
        | streamEnd => simp [pushLoop, hin, hlen, hst]
        | other code => simp [pushLoop, hin, hlen, hst]
        | ok =>
          simp only [pushLoop, if_neg hin, if_neg hlen, hst]
          by_cases hin' : input.drop (oracle k).consumed = []
          · simp [hin']
          · by_cases hfull : OUTPUT_CHUNK_SIZE ≤ (oracle k).outBytes.length
            · simp only [if_neg hin', if_pos hfull]
              apply ih
              have hc := h k
              have hd : (input.drop (oracle k).consumed).length =
                  input.length - (oracle k).consumed := List.length_drop _ _
              have hnz : input.length ≠ 0 := fun hz => hin (List.eq_nil_of_length_eq_zero hz)
              omega
            · simp [hin', hfull]
        | bufError =>
          simp only [pushLoop, if_neg hin, if_neg hlen, hst]
          by_cases hin' : input.drop (oracle k).consumed = []
          · simp [hin']
          · simp only [if_neg hin']
            apply ih
            have hc := h k
            have hd : (input.drop (oracle k).consumed).length =
                input.length - (oracle k).consumed := List.length_drop _ _
            have hnz : input.length ≠ 0 := fun hz => hin (List.eq_nil_of_length_eq_zero hz)
            omega

/-- Helper: the finish retry loop returns as soon as some invocation stops it
(status other than `Ok`/`BufError`, or zero bytes written). -/
theorem finishLoop_total (oracle : Oracle) :
    ∀ (d k : Nat) (output : List Nat), stepStops (oracle (k + d)) →
      (finishLoop oracle (d + 1) k output).isSome := by
  intro d
  induction d with
  | zero =>
    intro k output hstop
    rcases hstop with ⟨h1, h2⟩ | h3
    · cases hst : (oracle (k + 0)).status with
      | ok => rw [Nat.add_zero] at h1; exact absurd hst h1
      | bufError => rw [Nat.add_zero] at h2; exact absurd hst h2
      | refFail => simp only [Nat.add_zero] at hst; simp [finishLoop, hst]
      | streamEnd => simp only [Nat.add_zero] at hst; simp [finishLoop, hst]
      | other code => simp only [Nat.add_zero] at hst; simp [finishLoop, hst]
    · rw [Nat.add_zero] at h3
      cases hst : (oracle k).status <;> simp [finishLoop, hst, h3]
  | succ n ih =>
    intro k output hstop
    cases hst : (oracle k).status with
    | refFail => simp [finishLoop, hst]
    | streamEnd => simp [finishLoop, hst]
    | other code => simp [finishLoop, hst]
    | ok =>
      by_cases hz : (oracle k).outBytes.length = 0
      · simp [finishLoop, hst, hz]
      · simp only [finishLoop, hst, if_neg hz]
        apply ih
        have : k + 1 + n = k + (n + 1) := by omega
        rw [this]
        exact hstop
    | bufError =>
      by_cases hz : (oracle k).outBytes.length = 0
      · simp [finishLoop, hst, hz]
      · simp only [finishLoop, hst, if_neg hz]
        apply ih
        have : k + 1 + n = k + (n + 1) := by omega
        rw [this]
        exact hstop

/-- Helper: under a primitive that consumes at least one byte and never fills
the scratch buffer, the frame-synchronized loops return within
`input.length` iterations. -/
theorem zLoop_total (oracle : Oracle) (cs : Nat)
    (h : ∀ j, 1 ≤ (oracle j).consumed ∧ (oracle j).outBytes.length < cs) :
    ∀ (fuel : Nat) (input : List Nat), input.length < fuel →
      ∀ (k : Nat) (output : List Nat), (zLoop oracle cs fuel k input output).isSome := by
  intro fuel
  induction fuel with
  | zero => intro input hlt; omega
  | succ n ih =>
    intro input hlt k output
    cases hst : (oracle k).status with
    | refFail => simp [zLoop, hst]
    | streamEnd => simp [zLoop, hst]
    | other code => simp [zLoop, hst]
    | ok =>
      have hfull : ¬ cs ≤ (oracle k).outBytes.length := Nat.not_le.mpr (h k).2
      simp only [zLoop, hst, if_neg hfull]
      by_cases hin' : input.drop (oracle k).consumed = []
      · simp [hin']
      · by_cases hlen : U32MAX < (input.drop (oracle k).consumed).length
        · rw [List.length_drop] at hlen
          simp [hin', hlen]
        · simp only [if_neg hin', if_neg hlen]
          apply ih
          have hc := (h k).1
          have hd : (input.drop (oracle k).consumed).length =
              input.length - (oracle k).consumed := List.length_drop _ _
          have : (input.drop (oracle k).consumed).length ≠ 0 :=
            fun hz => hin' (List.eq_nil_of_length_eq_zero hz)
          omega
    | bufError =>
      have hfull : ¬ cs ≤ (oracle k).outBytes.length := Nat.not_le.mpr (h k).2
      simp only [zLoop, hst, if_neg hfull]
      by_cases hin' : input.drop (oracle k).consumed = []
      · simp [hin']
      · by_cases hlen : U32MAX < (input.drop (oracle k).consumed).length
        · rw [List.length_drop] at hlen
          simp [hin', hlen]
        · simp only [if_neg hin', if_neg hlen]
          apply ih
          have hc := (h k).1
          have hd : (input.drop (oracle k).consumed).length =
              input.length - (oracle k).consumed := List.length_drop _ _
          have : (input.drop (oracle k).consumed).length ≠ 0 :=
            fun hz => hin' (List.eq_nil_of_length_eq_zero hz)
          omega

/-- Helper: under the no-progress behaviour `oStuck`, the push retry loop
never returns, whatever the fuel, the call index or the output so far. -/
theorem pushLoop_oStuck_none : ∀ (fuel k : Nat) (output : List Nat),
    pushLoop oStuck fuel k [1] output = none := by
  intro fuel
  induction fuel with
  | zero => intro k output; rfl
  | succ n ih =>
    intro k output
    simp only [pushLoop, oStuck]
    norm_num [U32MAX]
    exact ih (k + 1) output

/-- Helper: `bigInput` is not empty. -/
theorem bigInput_ne_nil : bigInput ≠ [] := by
  intro h
  have h2 := congrArg List.length h
  rw [bigInput, List.length_replicate] at h2
  norm_num at h2

/-- Helper: `bigInput` is longer than `u32::MAX`. -/
theorem bigInput_len : U32MAX < bigInput.length := by
  rw [bigInput, List.length_replicate, U32MAX]
  norm_num

end CompressionLib

namespace CompressionLib

/-- C1: for the frame-synchronized engine in the non-finished state, push
appends the input to the accumulation buffer; if the buffer's final 4 bytes
are not the sync-flush marker the call returns success with no data and the
buffer is retained unchanged for the next call (whatever the primitive
behaviour and fuel); if they are the marker, the call decompresses the entire
accumulated buffer (marker included) as one frame and the accumulation buffer
becomes empty. -/
theorem zlibPush_marker_gating :
    (∀ (cs : Nat) (buf data : List Nat) (oracle : Oracle) (fuel : Nat),
       Z_SYNC_FLUSH_SUFFIX.isSuffixOf (buf ++ data) = false →
       ZlibDecompressor.push ⟨cs, buf, false⟩ oracle fuel data =
         some (.env (.success []), ⟨cs, buf ++ data, false⟩, data)) ∧
    (∀ (cs : Nat) (buf data : List Nat) (oracle : Oracle) (fuel : Nat),
       Z_SYNC_FLUSH_SUFFIX.isSuffixOf (buf ++ data) = true →
       ZlibDecompressor.push ⟨cs, buf, false⟩ oracle fuel data =
         (zFrame oracle cs fuel (buf ++ data)).map fun p =>
           (p.1, ⟨cs, [], p.2.1⟩, p.2.2)) := by
  constructor
  · intro cs buf data oracle fuel hsuf
    simp [ZlibDecompressor.push, hsuf]
  · intro cs buf data oracle fuel hsuf
    simp [ZlibDecompressor.push, hsuf]

/-- Witness for C1: a push of bytes not ending in the marker buffers them
verbatim; a push completing the marker decompresses the whole buffer as one
frame and empties the accumulation buffer. -/
theorem zlibPush_marker_gating_witness :
    ZlibDecompressor.push ⟨4, [], false⟩ oZero 3 [1, 2] =
      some (.env (.success []), ⟨4, [1, 2], false⟩, [1, 2]) ∧
    ZlibDecompressor.push ⟨4, [9], false⟩ oEnd 3 [0, 0, 255, 255] =
      (zFrame oEnd 4 3 ([9] ++ [0, 0, 255, 255])).map fun p =>
        (p.1, ⟨4, [], p.2.1⟩, p.2.2) :=
  ⟨zlibPush_marker_gating.1 4 [] [1, 2] oZero 3 (by decide),
   zlibPush_marker_gating.2 4 [9] [0, 0, 255, 255] oEnd 3 (by decide)⟩

/-- C2: once the finished flag is true, every push or finish call (of either
engine) returns success with no data, leaves the engine state unchanged, and
performs no decompression work: the result is the same whatever the primitive
behaviour and fuel, so the primitive is never consulted. -/
theorem finished_state_absorbing :
    ∀ (oracle : Oracle) (fuel : Nat) (data : List Nat) (cs : Nat) (buf : List Nat),
      Decompressor.push ⟨true⟩ oracle fuel data =
        some (.env (.success [] true), true, data) ∧
      Decompressor.finish ⟨true⟩ oracle fuel = some (.env (.success [] true), true) ∧
      ZlibDecompressor.push ⟨cs, buf, true⟩ oracle fuel data =
        some (.env (.success []), ⟨cs, buf, true⟩, data) := by
  intro oracle fuel data cs buf
  exact ⟨rfl, rfl, rfl⟩

/-- C3 counterexample: against the primitive behaviour that reports
`BufError` forever while consuming and producing nothing, the incremental
push retry loop on input `[1]` never returns, refuting termination for every
behaviour of the step primitive. -/
theorem push_retry_loop_diverges : PushDiverges oStuck ⟨false⟩ [1] := by
  intro fuel
  rw [Decompressor.push, if_neg (by decide : ¬ (false = true)), pushLoop_oStuck_none]

/-- C3 amended: the push and finish calls terminate under progress conditions
on the primitive: the incremental push returns within `input.length + 1`
iterations when every invocation consumes at least one byte; finish returns
once some invocation reports a stopping outcome (status other than
`Ok`/`BufError`, or zero bytes written); the frame-synchronized push returns
within `buffer.length + 1` iterations when every invocation consumes at least
one byte and writes fewer bytes than the scratch-buffer size. -/
theorem loops_terminate_under_progress :
    (∀ (oracle : Oracle), (∀ j, 1 ≤ (oracle j).consumed) →
       ∀ (data : List Nat),
         (Decompressor.push ⟨false⟩ oracle (data.length + 1) data).isSome) ∧
    (∀ (oracle : Oracle) (N : Nat), stepStops (oracle N) →
       (Decompressor.finish ⟨false⟩ oracle (N + 1)).isSome) ∧
    (∀ (oracle : Oracle) (cs : Nat) (buf data : List Nat),
       (∀ j, 1 ≤ (oracle j).consumed ∧ (oracle j).outBytes.length < cs) →
       (ZlibDecompressor.push ⟨cs, buf, false⟩ oracle ((buf ++ data).length + 1)
         data).isSome) := by
  refine ⟨?_, ?_, ?_⟩
  · intro oracle hc data
    rw [Decompressor.push, if_neg (by decide : ¬ (false = true))]
    exact pushLoop_total oracle hc (data.length + 1) data (Nat.lt_succ_self _) 0 []
  · intro oracle N hstop
    rw [Decompressor.finish, if_neg (by decide : ¬ (false = true))]
    exact finishLoop_total oracle N 0 [] (by simpa using hstop)
  · intro oracle cs buf data hc
    rw [ZlibDecompressor.push]
    simp only [if_neg (by decide : ¬ (false = true))]
    by_cases hsuf : Z_SYNC_FLUSH_SUFFIX.isSuffixOf (buf ++ data) = true
    · simp only [hsuf, if_pos trivial, Option.isSome_map']
      by_cases hfe : buf ++ data = []
      · simp [zFrame, hfe]
      · rw [zFrame]
        simp only [if_neg hfe]
        by_cases hlen : U32MAX < (buf ++ data).length
        · rw [List.length_append] at hlen
          simp [hlen]
        · simp only [if_neg hlen]
          exact zLoop_total oracle cs hc _ _ (Nat.lt_succ_self _) 0 []
    · simp [ZlibDecompressor.push, hsuf]

/-- Witness for the amended C3: concrete terminating runs of all three
operations under progressing primitive behaviours. -/
theorem loops_terminate_under_progress_witness :
    (Decompressor.push ⟨false⟩ oConsume1 2 [5]).isSome ∧
    (Decompressor.finish ⟨false⟩ oEnd 1).isSome ∧
    (ZlibDecompressor.push ⟨4, [], false⟩ oConsume1 5 [0, 0, 255, 255]).isSome :=
  ⟨loops_terminate_under_progress.1 oConsume1 (fun _ => Nat.le_refl 1) [5],
   loops_terminate_under_progress.2.1 oEnd 0 (Or.inl ⟨by decide, by decide⟩),
   loops_terminate_under_progress.2.2 oConsume1 4 [] [0, 0, 255, 255]
     (fun _ => ⟨Nat.le_refl 1, by simp [oConsume1]⟩)⟩

/-- C4: when the primitive reports any status other than `Ok`, `StreamEnd` or
`BufError` during a push iteration, both engines return the failure envelope
carrying the formatted decode-error message and latch the finished flag. -/
theorem decode_error_latches_finished :
    (∀ (oracle : Oracle) (fuel k : Nat) (input output : List Nat) (code : String),
       input ≠ [] → input.length ≤ U32MAX → (oracle k).status = .other code →
       pushLoop oracle (fuel + 1) k input output =
         some (.env (.failure ("Inflate error: " ++ code)), true,
           input.drop (oracle k).consumed)) ∧
    (∀ (oracle : Oracle) (cs fuel k : Nat) (input output : List Nat) (code : String),
       (oracle k).status = .other code →
       zLoop oracle cs (fuel + 1) k input output =
         some (.env (.failure ("Inflate error: " ++ code)), true,
           input.drop (oracle k).consumed)) := by
  constructor
  · intro oracle fuel k input output code hne hlen hst
    simp only [pushLoop, if_neg hne, if_neg (Nat.not_lt.mpr hlen), hst]
  · intro oracle cs fuel k input output code hst
    simp only [zLoop, hst]

/-- Witness for C4: a primitive reporting a decode error makes both loops
return the failure envelope and latch finished. -/
theorem decode_error_latches_finished_witness :
    pushLoop oErr 1 0 [1] [] =
      some (.env (.failure ("Inflate error: " ++ "DataError")), true,
        [1].drop (oErr 0).consumed) ∧
    zLoop oErr 4 1 0 [1] [] =
      some (.env (.failure ("Inflate error: " ++ "DataError")), true,
        [1].drop (oErr 0).consumed) :=
  ⟨decode_error_latches_finished.1 oErr 0 0 [1] [] "DataError"
     (by decide) (by decide) rfl,
   decode_error_latches_finished.2 oErr 4 0 0 [1] [] "DataError" rfl⟩

/-- C5 counterexample: an input longer than `u32::MAX` makes the incremental
push exit through the host error channel (`thrown`, a `napi` exception), not
through an `ok=false` result envelope; the finished flag is indeed left
unlatched. -/
theorem input_overflow_thrown_cx :
    Decompressor.push ⟨false⟩ oZero 1 bigInput =
      some (.thrown "Input chunk too large", false, bigInput) ∧
    DRet.isEnv (.thrown "Input chunk too large") = false := by
  constructor
  · rw [Decompressor.push, if_neg (by decide : ¬ (false = true))]
    simp only [pushLoop, if_neg bigInput_ne_nil, if_pos bigInput_len]
  · rfl

/-- C5 amended: when an input length exceeds the primitive's addressable
range (`u32::MAX`), both engines report it for that call on the host error
channel (a thrown exception carrying the overflow message), rather than as a
failure result envelope, and the finished flag is not latched. -/
theorem input_overflow_thrown :
    (∀ (oracle : Oracle) (fuel : Nat) (input : List Nat),
       input ≠ [] → U32MAX < input.length →
       Decompressor.push ⟨false⟩ oracle (fuel + 1) input =
         some (.thrown "Input chunk too large", false, input)) ∧
    (∀ (oracle : Oracle) (cs fuel : Nat) (frame : List Nat),
       frame ≠ [] → U32MAX < frame.length →
       zFrame oracle cs fuel frame =
         some (.thrown "Input chunk too large", false, frame)) := by
  constructor
  · intro oracle fuel input hne hlen
    rw [Decompressor.push, if_neg (by decide : ¬ (false = true))]
    simp only [pushLoop, if_neg hne, if_pos hlen]
  · intro oracle cs fuel frame hne hlen
    rw [zFrame]
    simp only [if_neg hne, if_pos hlen]

/-- Witness for the amended C5: the oversized input triggers the thrown
overflow error on both engines, with the finished flag still false. -/
theorem input_overflow_thrown_witness :
    Decompressor.push ⟨false⟩ oZero 2 bigInput =
      some (.thrown "Input chunk too large", false, bigInput) ∧
    zFrame oZero 4 0 bigInput =
      some (.thrown "Input chunk too large", false, bigInput) :=
  ⟨input_overflow_thrown.1 oZero 1 bigInput bigInput_ne_nil bigInput_len,
   input_overflow_thrown.2 oZero 4 0 bigInput bigInput_ne_nil bigInput_len⟩

/-- C6 counterexample: a push leaving the buffer holding one complete frame
(`[1]` plus the marker) followed by the trailing byte `7` processes nothing:
the whole buffer, complete frame included, stays buffered (it is not `[7]`,
the leftover after the marker), no output is produced, and the primitive is
never consulted. -/
theorem trailing_frame_unprocessed_cx :
    ZlibDecompressor.push ⟨4, [], false⟩ oZero 3 [1, 0, 0, 255, 255, 7] =
      some (.env (.success []), ⟨4, [1, 0, 0, 255, 255, 7], false⟩,
        [1, 0, 0, 255, 255, 7]) ∧
    ([1, 0, 0, 255, 255, 7] : List Nat) ≠ [7] :=
  ⟨by decide, by decide⟩

/-- C6 amended: the frame-synchronized engine detects the marker only at the
very tail of the accumulation buffer.  If a push leaves the buffer containing
a complete frame (ending in the marker) followed by trailing bytes, so that
the tail is not the marker, no frame is processed: the call returns success
with no data and the entire buffer, complete frame included, remains buffered
for a following call. -/
theorem marker_checked_only_at_tail :
    ∀ (cs : Nat) (buf data pre trailing : List Nat) (oracle : Oracle) (fuel : Nat),
      buf ++ data = pre ++ Z_SYNC_FLUSH_SUFFIX ++ trailing →
      Z_SYNC_FLUSH_SUFFIX.isSuffixOf (buf ++ data) = false →
      ZlibDecompressor.push ⟨cs, buf, false⟩ oracle fuel data =
        some (.env (.success []),
          ⟨cs, pre ++ Z_SYNC_FLUSH_SUFFIX ++ trailing, false⟩, data) := by
  intro cs buf data pre trailing oracle fuel heq hsuf
  rw [ZlibDecompressor.push]
  simp only [if_neg (by decide : ¬ (false = true))]
  rw [← heq]
  simp [hsuf]

/-- Witness for the amended C6: a buffer holding the complete frame
`[1] ++ marker` followed by `[9]` is retained whole, and nothing is
decompressed. -/
theorem marker_checked_only_at_tail_witness :
    ZlibDecompressor.push ⟨4, [], false⟩ oZero 3 [1, 0, 0, 255, 255, 9] =
      some (.env (.success []),
        ⟨4, [1] ++ Z_SYNC_FLUSH_SUFFIX ++ [9], false⟩, [1, 0, 0, 255, 255, 9]) :=
  marker_checked_only_at_tail 4 [] [1, 0, 0, 255, 255, 9] [1] [9] oZero 3
    (by decide) (by decide)

/-- C7: when the primitive reports `StreamEnd` during frame decompression,
the loop stops at that very iteration (the equality holds with any remaining
fuel), returns success with the output accumulated so far, and latches
finished; moreover, whenever the marker branch of push is taken the
accumulation buffer afterwards is empty, so the frame bytes left unconsumed
at the `StreamEnd` are discarded, not retained. -/
theorem streamEnd_discards_rest :
    (∀ (oracle : Oracle) (cs fuel k : Nat) (input output : List Nat)
       (c : Nat) (out : List Nat),
       oracle k = ⟨c, out, .streamEnd⟩ →
       zLoop oracle cs (fuel + 1) k input output =
         some (.env (.success (output ++ out.take cs)), true, input.drop c)) ∧
    (∀ (cs : Nat) (buf data : List Nat) (oracle : Oracle) (fuel : Nat) r st lo,
       Z_SYNC_FLUSH_SUFFIX.isSuffixOf (buf ++ data) = true →
       ZlibDecompressor.push ⟨cs, buf, false⟩ oracle fuel data = some (r, st, lo) →
       st.internal_buffer = []) := by
  constructor
  · intro oracle cs fuel k input output c out hk
    simp only [zLoop, hk]
  · intro cs buf data oracle fuel r st lo hsuf h
    rw [ZlibDecompressor.push] at h
    simp only [if_neg (by decide : ¬ (false = true))] at h
    simp only [hsuf, if_pos trivial] at h
    rw [Option.map_eq_some'] at h
    obtain ⟨p, hp, hmap⟩ := h
    cases hmap
    rfl

/-- Witness for C7: `StreamEnd` with two frame bytes still unconsumed stops
the loop at once with finished latched, and the post-push buffer is empty. -/
theorem streamEnd_discards_rest_witness :
    zLoop oEnd 4 1 0 [1, 2, 3, 4, 5, 6] [] =
      some (.env (.success ([] ++ ([] : List Nat).take 4)), true,
        [1, 2, 3, 4, 5, 6].drop 4) ∧
    (⟨4, [], true⟩ : ZlibDecompressor).internal_buffer = [] :=
  ⟨streamEnd_discards_rest.1 oEnd 4 0 0 [1, 2, 3, 4, 5, 6] [] 4 [] rfl,
   streamEnd_discards_rest.2 4 [9] [0, 0, 255, 255] oEnd 3
     (.env (.success [])) ⟨4, [], true⟩ [255] (by decide) (by decide)⟩

/-- C8: during finish, an iteration on which the primitive reports `BufError`
having written zero bytes makes the call return the terminal failure envelope
with the buffer-too-small message and latch finished, from any loop state and
hence also from the top-level finish call; that message is distinct from both
decode-error message families. -/
theorem finish_buffer_too_small :
    (∀ (oracle : Oracle) (fuel k : Nat) (output : List Nat),
       (oracle k).status = .bufError → (oracle k).outBytes = [] →
       finishLoop oracle (fuel + 1) k output =
         some (.env (.failure "Output buffer too small to finish inflation"), true)) ∧
    (∀ (oracle : Oracle) (fuel : Nat),
       (oracle 0).status = .bufError → (oracle 0).outBytes = [] →
       Decompressor.finish ⟨false⟩ oracle (fuel + 1) =
         some (.env (.failure "Output buffer too small to finish inflation"), true)) ∧
    (∀ code : String,
       "Output buffer too small to finish inflation" ≠ "Inflate finish error: " ++ code ∧
       "Output buffer too small to finish inflation" ≠ "Inflate error: " ++ code) := by
  have hloop : ∀ (oracle : Oracle) (fuel k : Nat) (output : List Nat),
      (oracle k).status = .bufError → (oracle k).outBytes = [] →
      finishLoop oracle (fuel + 1) k output =
        some (.env (.failure "Output buffer too small to finish inflation"), true) := by
    intro oracle fuel k output hst hout
    simp only [finishLoop, hst, hout, List.length_nil, if_pos trivial]
  refine ⟨hloop, ?_, ?_⟩
  · intro oracle fuel h0 h0'
    rw [Decompressor.finish, if_neg (by decide : ¬ (false = true))]
    exact hloop oracle fuel 0 [] h0 h0'
  · intro code
    exact ⟨msg_ne_of_head _ _ _ rfl rfl, msg_ne_of_head _ _ _ rfl rfl⟩

/-- Witness for C8: the no-progress `BufError` behaviour makes finish fail
with the buffer-too-small message, which differs from the decode-error
messages. -/
theorem finish_buffer_too_small_witness :
    finishLoop oStuck 1 0 [] =
      some (.env (.failure "Output buffer too small to finish inflation"), true) ∧
    Decompressor.finish ⟨false⟩ oStuck 1 =
      some (.env (.failure "Output buffer too small to finish inflation"), true) ∧
    ("Output buffer too small to finish inflation" ≠ "Inflate finish error: " ++ "X" ∧
     "Output buffer too small to finish inflation" ≠ "Inflate error: " ++ "X") :=
  ⟨finish_buffer_too_small.1 oStuck 0 0 [] rfl rfl,
   finish_buffer_too_small.2.1 oStuck 0 rfl rfl,
   finish_buffer_too_small.2.2 "X"⟩

/-- C9 counterexample: under a primitive that consumes one byte and reports
`Ok` without filling the scratch buffer, push on `[1, 2, 3]` returns success
with finished false while the unconsumed remainder `[2, 3]` of its input is
silently dropped (the engine keeps no input buffer). -/
theorem push_success_drops_input_cx :
    Decompressor.push ⟨false⟩ oConsume1 5 [1, 2, 3] =
      some (.env (.success [] false), false, [2, 3]) ∧
    ([2, 3] : List Nat) ≠ [] :=
  ⟨by decide, by decide⟩

/-- C9 amended: when the incremental push returns success with finished
false, either the whole input has been consumed (the unconsumed remainder is
empty), or some invocation of the primitive reported `Ok` without filling the
scratch buffer — the one break path that abandons unconsumed input. -/
theorem push_success_unconsumed_input :
    (∀ (oracle : Oracle) (fuel k : Nat) (input output d lo : List Nat) (fin2 : Bool),
       pushLoop oracle fuel k input output = some (.env (.success d false), fin2, lo) →
       lo = [] ∨ ∃ j, (oracle j).status = .ok ∧
         (oracle j).outBytes.length < OUTPUT_CHUNK_SIZE) ∧
    (∀ (oracle : Oracle) (fuel : Nat) (data d lo : List Nat) (fin2 : Bool),
       Decompressor.push ⟨false⟩ oracle fuel data =
           some (.env (.success d false), fin2, lo) →
       lo = [] ∨ ∃ j, (oracle j).status = .ok ∧
         (oracle j).outBytes.length < OUTPUT_CHUNK_SIZE) := by
  have main : ∀ (oracle : Oracle) (fuel k : Nat) (input output d lo : List Nat)
      (fin2 : Bool),
      pushLoop oracle fuel k input output = some (.env (.success d false), fin2, lo) →
      lo = [] ∨ ∃ j, (oracle j).status = .ok ∧
        (oracle j).outBytes.length < OUTPUT_CHUNK_SIZE := by
    intro oracle fuel
    induction fuel with
    | zero => intro k input output d lo fin2 h; cases h
    | succ n ih =>
      intro k input output d lo fin2 h
      by_cases hin : input = []
      · rw [pushLoop, if_pos hin] at h
        cases h
        exact Or.inl hin
      · by_cases hlen : U32MAX < input.length
        · rw [pushLoop, if_neg hin, if_pos hlen] at h
          cases h
        · cases hst : (oracle k).status with
          | refFail => rw [pushLoop, if_neg hin, if_neg hlen] at h; simp [hst] at h
          | streamEnd => rw [pushLoop, if_neg hin, if_neg hlen] at h; simp [hst] at h
          | other code => rw [pushLoop, if_neg hin, if_neg hlen] at h; simp [hst] at h
          | ok =>
            rw [pushLoop, if_neg hin, if_neg hlen] at h
            simp only [hst] at h
            by_cases hin' : input.drop (oracle k).consumed = []
            · rw [if_pos hin'] at h
              cases h
              exact Or.inl hin'
            · rw [if_neg hin'] at h
              by_cases hfull : OUTPUT_CHUNK_SIZE ≤ (oracle k).outBytes.length
              · rw [if_pos hfull] at h
                exact ih (k + 1) _ _ d lo fin2 h
              · rw [if_neg hfull] at h
                exact Or.inr ⟨k, hst, Nat.not_le.mp hfull⟩
          | bufError =>
            rw [pushLoop, if_neg hin, if_neg hlen] at h
            simp only [hst] at h
            by_cases hin' : input.drop (oracle k).consumed = []
            · rw [if_pos hin'] at h
              cases h
              exact Or.inl hin'
            · rw [if_neg hin'] at h
              exact ih (k + 1) _ _ d lo fin2 h
  constructor
  · exact main
  · intro oracle fuel data d lo fin2 h
    rw [Decompressor.push, if_neg (by decide : ¬ (false = true))] at h
    exact main oracle fuel 0 data [] d lo fin2 h

/-- Witness for the amended C9: in the dropped-input run, the disjunction is
realized by the `Ok`-without-full-buffer invocation. -/
theorem push_success_unconsumed_input_witness :
    ([2, 3] : List Nat) = [] ∨ ∃ j, (oConsume1 j).status = .ok ∧
      (oConsume1 j).outBytes.length < OUTPUT_CHUNK_SIZE :=
  push_success_unconsumed_input.2 oConsume1 5 [1, 2, 3] [] [2, 3] false (by decide)

/-- C10: the finished flag is monotone for every public operation of both
engines: whenever a call returns, a previously true finished flag is still
true afterwards (no path resets it). -/
theorem finished_flag_monotone :
    (∀ (e : Decompressor) (oracle : Oracle) (fuel : Nat) (data : List Nat) p,
      e.push oracle fuel data = some p → e.finished = true → p.2.1 = true) ∧
    (∀ (e : Decompressor) (oracle : Oracle) (fuel : Nat) q,
      e.finish oracle fuel = some q → e.finished = true → q.2 = true) ∧
    (∀ (z : ZlibDecompressor) (oracle : Oracle) (fuel : Nat) (data : List Nat) p,
      z.push oracle fuel data = some p → z.finished = true → p.2.1.finished = true) := by
  refine ⟨?_, ?_, ?_⟩
  · intro e oracle fuel data p h hfin
    rw [Decompressor.push, if_pos hfin] at h
    cases h
    rfl
  · intro e oracle fuel q h hfin
    rw [Decompressor.finish, if_pos hfin] at h
    cases h
    rfl
  · intro z oracle fuel data p h hfin
    rw [ZlibDecompressor.push, if_pos hfin] at h
    cases h
    exact hfin

/-- Witness for C10: a finished incremental engine stays finished across a
push. -/
theorem finished_flag_monotone_witness :
    Decompressor.push ⟨true⟩ oZero 0 [] = some (.env (.success [] true), true, []) ∧
    ((DRet.env (.success [] true), true, ([] : List Nat)).2.1 = true) :=
  ⟨rfl, finished_flag_monotone.1 ⟨true⟩ oZero 0 [] _ rfl rfl⟩

end CompressionLib
